import Mathlib

/-!
Verification of the carburacy scorer from
src/run_generation_transfert_learning.py.

The two functions under study are pure numeric computations over Python
floats; we embed them over the real numbers.  Python exceptions
(ValueError from math.log on a non-positive argument or base,
ZeroDivisionError from float division by zero, including the one hidden
inside two-argument math.log when the base is 1) are made explicit with
an Except monad; the Python value None becomes Option.none.
-/

open scoped Classical

/-- The Python exceptions that the carburacy functions can raise. -/
inductive PyErr where
  | valueError : PyErr
  | zeroDivisionError : PyErr
deriving DecidableEq

/-- Line 133 of the source: the local variable
score_adjustment = math.exp(math.log(normalized_score, alpha)).
Two-argument math.log(x, b) computes log(x)/log(b). -/
noncomputable def score_adjustment (normalized_score : ℝ) (alpha : ℝ) : ℝ :=
  Real.exp (Real.log normalized_score / Real.log alpha)

/-- Lines 130-135 of the source:

def calculate_carburacy(score, emission, beta, alpha=10):
    if emission is not None:
        normalized_score = score / 100
        score_adjustment = math.exp(math.log(normalized_score, alpha))
        return score_adjustment / (1 + emission * beta)
    return None

math.log(x, b) raises ValueError when x <= 0 or b <= 0, and
ZeroDivisionError when b = 1 (log(x)/log(1) divides by 0.0); the final
float division raises ZeroDivisionError when 1 + emission * beta = 0. -/
noncomputable def calculate_carburacy (score : ℝ) (emission : Option ℝ)
    (beta : ℝ) (alpha : ℝ) : Except PyErr (Option ℝ) :=
  match emission with
  | some e =>
      if score / 100 ≤ 0 then .error .valueError
      else if alpha ≤ 0 then .error .valueError
      else if alpha = 1 then .error .zeroDivisionError
      else if 1 + e * beta = 0 then .error .zeroDivisionError
      else .ok (some (score_adjustment (score / 100) alpha / (1 + e * beta)))
  | none => .ok none

/-- Lines 137-143 of the source:

def get_carburacy(score, emission_train, emission_test, alpha=10,
                  beta_train=1, beta_test=100):
    carburacy_train = calculate_carburacy(score, emission_train, beta_train, alpha)
    carburacy_test = calculate_carburacy(score, emission_test, beta_test, alpha)
    carburacy = None
    if carburacy_train is not None and carburacy_test is not None:
        carburacy = (2 * carburacy_train * carburacy_test) / (carburacy_train + carburacy_test)
    return carburacy_train, carburacy_test, carburacy

Exceptions raised by either inner call propagate; the harmonic-mean
division raises ZeroDivisionError when the two carburacies sum to 0. -/
noncomputable def get_carburacy (score : ℝ) (emission_train emission_test : Option ℝ)
    (alpha beta_train beta_test : ℝ) :
    Except PyErr (Option ℝ × Option ℝ × Option ℝ) :=
  match calculate_carburacy score emission_train beta_train alpha with
  | .error err => .error err
  | .ok carburacy_train =>
      match calculate_carburacy score emission_test beta_test alpha with
      | .error err => .error err
      | .ok carburacy_test =>
          match carburacy_train, carburacy_test with
          | some ct, some cs =>
              if ct + cs = 0 then .error .zeroDivisionError
              else .ok (some ct, some cs, some ((2 * ct * cs) / (ct + cs)))
          | _, _ => .ok (carburacy_train, carburacy_test, none)

/-- On a present emission and in-domain parameters, calculate_carburacy
returns the literal formula of line 133-134. -/
theorem calculate_carburacy_ok_eq (score e beta alpha : ℝ)
    (hscore : 0 < score) (halpha : 0 < alpha) (hone : alpha ≠ 1)
    (hden : 1 + e * beta ≠ 0) :
    calculate_carburacy score (some e) beta alpha =
      .ok (some (score_adjustment (score / 100) alpha / (1 + e * beta))) := by
  have h1 : ¬ (score / 100 ≤ 0) := by
    push_neg
    positivity
  have h2 : ¬ (alpha ≤ 0) := by push_neg; exact halpha
  simp only [calculate_carburacy, if_neg h1, if_neg h2, if_neg hone, if_neg hden]

/-- Structure of a successful get_carburacy run: both inner calls
succeeded, and the combined value is the harmonic mean when both phase
carburacies are present (with a nonzero sum, else the run would have
raised), and None when either phase is absent. -/
theorem get_carburacy_ok_cases (score alpha bt bs : ℝ) (et es : Option ℝ)
    (ot os comb : Option ℝ)
    (h : get_carburacy score et es alpha bt bs = .ok (ot, os, comb)) :
    calculate_carburacy score et bt alpha = .ok ot ∧
    calculate_carburacy score es bs alpha = .ok os ∧
    ((∃ ct cs, ot = some ct ∧ os = some cs ∧ ct + cs ≠ 0 ∧
        comb = some (2 * ct * cs / (ct + cs))) ∨
      ((ot = none ∨ os = none) ∧ comb = none)) := by
  rw [get_carburacy] at h
  rcases h1 : calculate_carburacy score et bt alpha with err1 | o1
  · rw [h1] at h
    simp at h
  · rw [h1] at h
    rcases h2 : calculate_carburacy score es bs alpha with err2 | o2
    · rw [h2] at h
      simp at h
    · rw [h2] at h
      rcases o1 with _ | ct
      · rcases o2 with _ | cs
        · simp at h
          obtain ⟨h3, h4, h5⟩ := h
          subst h3; subst h4; subst h5
          exact ⟨rfl, rfl, Or.inr ⟨Or.inl rfl, rfl⟩⟩
        · simp at h
          obtain ⟨h3, h4, h5⟩ := h
          subst h3; subst h4; subst h5
          exact ⟨rfl, rfl, Or.inr ⟨Or.inl rfl, rfl⟩⟩
      · rcases o2 with _ | cs
        · simp at h
          obtain ⟨h3, h4, h5⟩ := h
          subst h3; subst h4; subst h5
          exact ⟨rfl, rfl, Or.inr ⟨Or.inr rfl, rfl⟩⟩
        · by_cases hz : ct + cs = 0
          · simp [hz] at h
          · simp [hz] at h
            obtain ⟨h3, h4, h5⟩ := h
            subst h3; subst h4; subst h5
            exact ⟨rfl, rfl, Or.inl ⟨ct, cs, rfl, rfl, hz, rfl⟩⟩

/-- C1: for every score, beta, alpha in the evaluation domain (positive
score, positive log base other than 1, nonzero penalty denominator) and
a present emission, calculate_carburacy returns
exp(ln(score/100)/ln(alpha)) divided by (1 + emission * beta), the
literal two-step computation the spec states. -/
theorem C1_calculate_carburacy_formula (score e beta alpha : ℝ)
    (hscore : 0 < score) (halpha : 0 < alpha) (hone : alpha ≠ 1)
    (hden : 1 + e * beta ≠ 0) :
    calculate_carburacy score (some e) beta alpha =
      .ok (some (Real.exp (Real.log (score / 100) / Real.log alpha) / (1 + e * beta))) :=
  calculate_carburacy_ok_eq score e beta alpha hscore halpha hone hden

/-- C1 witness at score 80, emission 0.5, beta 1, alpha 10. -/
theorem C1_calculate_carburacy_formula_witness :
    calculate_carburacy 80 (some 0.5) 1 10 =
      .ok (some (Real.exp (Real.log (80 / 100) / Real.log 10) / (1 + 0.5 * 1))) :=
  C1_calculate_carburacy_formula 80 0.5 1 10 (by norm_num) (by norm_num)
    (by norm_num) (by norm_num)

/-- C7: a non-positive score with a present emission makes math.log
raise a domain error (ValueError); in particular score 0 errors rather
than silently returning 0. -/
theorem C7_domain_error (score e beta alpha : ℝ) (h : score ≤ 0) :
    calculate_carburacy score (some e) beta alpha = .error .valueError := by
  have h1 : score / 100 ≤ 0 := by linarith
  simp [calculate_carburacy, if_pos h1]

/-- C7 witness: score 0 raises the domain error. -/
theorem C7_domain_error_witness :
    calculate_carburacy 0 (some 1) 1 10 = .error .valueError :=
  C7_domain_error 0 1 1 10 (by norm_num)

/-- C4: an absent emission makes calculate_carburacy return None for
any score, beta, alpha; consequently get_carburacy with an absent train
emission returns the triple (None, test carburacy value, None). -/
theorem C4_none_emission (score beta alpha e beta2 : ℝ)
    (hscore : 0 < score) (halpha : 0 < alpha) (hone : alpha ≠ 1)
    (hden : 1 + e * beta2 ≠ 0) :
    calculate_carburacy score none beta alpha = .ok none ∧
    get_carburacy score none (some e) alpha beta beta2 =
      .ok (none, some (score_adjustment (score / 100) alpha / (1 + e * beta2)), none) := by
  refine ⟨rfl, ?_⟩
  rw [get_carburacy, calculate_carburacy_ok_eq score e beta2 alpha hscore halpha hone hden]
  rfl

/-- C4 witness at score 80, test emission 0.01, beta_test 100. -/
theorem C4_none_emission_witness :
    calculate_carburacy 80 none 1 10 = .ok none ∧
    get_carburacy 80 none (some 0.01) 10 1 100 =
      .ok (none, some (score_adjustment (80 / 100) 10 / (1 + 0.01 * 100)), none) :=
  C4_none_emission 80 1 10 0.01 100 (by norm_num) (by norm_num) (by norm_num)
    (by norm_num)

/-- The exponent log(4/5)/log 10 computed for score 80, alpha 10 lies in
[-1/10, -1/11]; the endpoints come from (5/4)^10 < 10 < (5/4)^11. -/
theorem log_ratio_bounds :
    (-1 : ℝ) / 10 ≤ Real.log (4 / 5) / Real.log 10 ∧
      Real.log (4 / 5) / Real.log 10 ≤ -1 / 11 := by
  have hL10 : 0 < Real.log 10 := Real.log_pos (by norm_num)
  have hinv : ((4 : ℝ) / 5) = ((5 : ℝ) / 4)⁻¹ := by norm_num
  have hlow : 10 * Real.log (5 / 4) ≤ Real.log 10 := by
    have h := (Real.log_le_log_iff (x := ((5 : ℝ) / 4) ^ (10 : ℕ)) (y := 10)
        (by positivity) (by norm_num)).mpr (by norm_num)
    rwa [Real.log_pow, Nat.cast_ofNat] at h
  have hhigh : Real.log 10 ≤ 11 * Real.log (5 / 4) := by
    have h := (Real.log_le_log_iff (x := (10 : ℝ)) (y := ((5 : ℝ) / 4) ^ (11 : ℕ))
        (by norm_num) (by positivity)).mpr (by norm_num)
    rwa [Real.log_pow, Nat.cast_ofNat] at h
  constructor
  · rw [le_div_iff₀ hL10, hinv, Real.log_inv]
    linarith
  · rw [div_le_iff₀ hL10, hinv, Real.log_inv]
    linarith

/-- Bounds on the score adjustment at normalized score 4/5, alpha 10:
exp(log(4/5)/log 10) = 0.9076... lies in [9/10, 11/12]. -/
theorem score_adjustment_bounds :
    9 / 10 ≤ score_adjustment (4 / 5) 10 ∧ score_adjustment (4 / 5) 10 ≤ 11 / 12 := by
  obtain ⟨hlow, hhigh⟩ := log_ratio_bounds
  constructor
  · have h1 : Real.exp (-1 / 10) ≤ score_adjustment (4 / 5) 10 :=
      Real.exp_le_exp.mpr hlow
    have h2 : (9 : ℝ) / 10 ≤ Real.exp (-1 / 10) := by
      have := Real.add_one_le_exp (-1 / 10)
      linarith
    linarith
  · have h1 : score_adjustment (4 / 5) 10 ≤ Real.exp (-1 / 11) :=
      Real.exp_le_exp.mpr hhigh
    have h2 : Real.exp (-1 / 11) ≤ 11 / 12 := by
      have hx : (12 : ℝ) / 11 ≤ Real.exp (1 / 11) := by
        have := Real.add_one_le_exp (1 / 11)
        linarith
      have hpos : (0 : ℝ) < 12 / 11 := by norm_num
      calc Real.exp (-1 / 11) = (Real.exp (1 / 11))⁻¹ := by
            rw [← Real.exp_neg]; norm_num
        _ ≤ ((12 : ℝ) / 11)⁻¹ := by
            apply inv_anti₀ hpos hx
        _ = 11 / 12 := by norm_num
    linarith

/-- Evaluation of get_carburacy on the spec's scenario-1 inputs; writing
A for score_adjustment (4/5) 10, the three results are A/(3/2), A/2 and
their harmonic mean 4A/7. -/
theorem get_carburacy_scenario1_eq :
    get_carburacy 80 (some 0.5) (some 0.01) 10 1 100 =
      .ok (some (score_adjustment (4 / 5) 10 / (3 / 2)),
           some (score_adjustment (4 / 5) 10 / 2),
           some (4 * score_adjustment (4 / 5) 10 / 7)) := by
  have hA : 0 < score_adjustment (4 / 5) 10 := Real.exp_pos _
  have h80 : (80 : ℝ) / 100 = 4 / 5 := by norm_num
  have htr : calculate_carburacy 80 (some 0.5) 1 10 =
      .ok (some (score_adjustment (4 / 5) 10 / (3 / 2))) := by
    rw [calculate_carburacy_ok_eq 80 0.5 1 10 (by norm_num) (by norm_num)
      (by norm_num) (by norm_num), h80]
    norm_num
  have hte : calculate_carburacy 80 (some 0.01) 100 10 =
      .ok (some (score_adjustment (4 / 5) 10 / 2)) := by
    rw [calculate_carburacy_ok_eq 80 0.01 100 10 (by norm_num) (by norm_num)
      (by norm_num) (by norm_num), h80]
    norm_num
  have hsum : score_adjustment (4 / 5) 10 / (3 / 2) + score_adjustment (4 / 5) 10 / 2 ≠ 0 := by
    positivity
  have hhm : (2 * (score_adjustment (4 / 5) 10 / (3 / 2)) * (score_adjustment (4 / 5) 10 / 2)) /
      (score_adjustment (4 / 5) 10 / (3 / 2) + score_adjustment (4 / 5) 10 / 2) =
      4 * score_adjustment (4 / 5) 10 / 7 := by
    rw [div_eq_div_iff (by positivity) (by norm_num)]
    ring
  rw [get_carburacy, htr, hte]
  simp only [if_neg hsum, hhm]

/-- C2 counterexample: at alpha = e^2 (> 1) and normalized score e^(-1)
(in (0, 1]) the computed score adjustment is e^(-1/2), not the
normalized score itself: the round-trip is not the identity, because the
code exponentiates log_alpha with math.exp (base e), not with alpha. -/
theorem C2_roundtrip_counterexample :
    1 < Real.exp 2 ∧ 0 < Real.exp (-1) ∧ Real.exp (-1) ≤ 1 ∧
    score_adjustment (Real.exp (-1)) (Real.exp 2) ≠ Real.exp (-1) := by
  refine ⟨Real.one_lt_exp_iff.mpr (by norm_num), Real.exp_pos _,
    Real.exp_le_one_iff.mpr (by norm_num), ?_⟩
  rw [score_adjustment, Real.log_exp, Real.log_exp]
  intro hcontra
  rw [Real.exp_eq_exp] at hcontra
  norm_num at hcontra

/-- C2 amended: the score adjustment computed inside calculate_carburacy
is normalized_score^(1/ln alpha), not alpha^(log_alpha normalized_score);
for alpha > 1 and a normalized score in (0, 1] it equals the normalized
score exactly when alpha = e or the normalized score is 1. -/
theorem C2_roundtrip_amended (ns alpha : ℝ) (hns : 0 < ns) (hns1 : ns ≤ 1)
    (halpha : 1 < alpha) :
    score_adjustment ns alpha = ns ^ (Real.log alpha)⁻¹ ∧
    (score_adjustment ns alpha = ns ↔ alpha = Real.exp 1 ∨ ns = 1) := by
  have hL : 0 < Real.log alpha := Real.log_pos halpha
  constructor
  · rw [score_adjustment, Real.rpow_def_of_pos hns, div_eq_mul_inv]
  · rw [score_adjustment]
    constructor
    · intro hid
      have hns' : Real.exp (Real.log ns) = ns := Real.exp_log hns
      rw [← hns', Real.exp_eq_exp] at hid
      rw [Real.log_exp] at hid
      rw [div_eq_iff (ne_of_gt hL)] at hid
      have hz : Real.log ns * (1 - Real.log alpha) = 0 := by
        rw [mul_sub, mul_one]
        linarith
      rcases mul_eq_zero.mp hz with h0 | h0
      · right
        rcases Real.log_eq_zero.mp h0 with h' | h' | h'
        · exact absurd h' (ne_of_gt hns)
        · exact h'
        · rw [h'] at hns
          norm_num at hns
      · left
        have hA1 : Real.log alpha = 1 := by linarith
        have hexp : Real.exp (Real.log alpha) = alpha := Real.exp_log (by linarith)
        rw [← hexp, hA1]
    · intro hcase
      rcases hcase with h' | h'
      · subst h'
        rw [Real.log_exp, div_one, Real.exp_log hns]
      · subst h'
        rw [Real.log_one, zero_div, Real.exp_zero]

/-- C2 amended witness at normalized score 1, alpha 10. -/
theorem C2_roundtrip_amended_witness :
    score_adjustment 1 10 = (1 : ℝ) ^ (Real.log 10)⁻¹ ∧
    (score_adjustment 1 10 = 1 ↔ (10 : ℝ) = Real.exp 1 ∨ (1 : ℝ) = 1) :=
  C2_roundtrip_amended 1 10 (by norm_num) (by norm_num) (by norm_num)

/-- C3 counterexample: on the scenario-1 inputs the code returns a train
carburacy of at least 0.6, which is not approximately 0.8/1.5 = 0.5333
(it is off by more than 0.05), because the score adjustment at score 80
is 0.8^(1/ln 10) = 0.9076..., not 0.8. -/
theorem C3_scenario1_counterexample :
    get_carburacy 80 (some 0.5) (some 0.01) 10 1 100 =
      .ok (some (score_adjustment (4 / 5) 10 / (3 / 2)),
           some (score_adjustment (4 / 5) 10 / 2),
           some (4 * score_adjustment (4 / 5) 10 / 7)) ∧
    ¬ |score_adjustment (4 / 5) 10 / (3 / 2) - 0.5333| ≤ 0.05 := by
  refine ⟨get_carburacy_scenario1_eq, ?_⟩
  obtain ⟨hlow, hhigh⟩ := score_adjustment_bounds
  rw [abs_le, not_and_or]
  right
  push_neg
  linarith

/-- C3 amended: scenario 1 actually yields train carburacy A/(3/2) =
0.605..., test carburacy A/2 = 0.4538..., and combined harmonic mean
4A/7 = 0.5186..., where A = exp(ln 0.8 / ln 10) = 0.9076... is the
score adjustment at score 80. -/
theorem C3_scenario1_amended :
    get_carburacy 80 (some 0.5) (some 0.01) 10 1 100 =
      .ok (some (score_adjustment (4 / 5) 10 / (3 / 2)),
           some (score_adjustment (4 / 5) 10 / 2),
           some (4 * score_adjustment (4 / 5) 10 / 7)) ∧
    0.6 ≤ score_adjustment (4 / 5) 10 / (3 / 2) ∧
    score_adjustment (4 / 5) 10 / (3 / 2) ≤ 0.62 ∧
    0.45 ≤ score_adjustment (4 / 5) 10 / 2 ∧
    score_adjustment (4 / 5) 10 / 2 ≤ 0.46 ∧
    0.51 ≤ 4 * score_adjustment (4 / 5) 10 / 7 ∧
    4 * score_adjustment (4 / 5) 10 / 7 ≤ 0.53 := by
  obtain ⟨hlow, hhigh⟩ := score_adjustment_bounds
  exact ⟨get_carburacy_scenario1_eq, by linarith, by linarith, by linarith,
    by linarith, by linarith, by linarith⟩

/-- C5: whenever get_carburacy returns (raises no exception), the
combined value is the harmonic mean 2*ct*cs/(ct+cs) of the two phase
carburacies when both are present, and None when either is absent. -/
theorem C5_harmonic_mean (score alpha bt bs : ℝ) (et es : Option ℝ)
    (ot os comb : Option ℝ)
    (h : get_carburacy score et es alpha bt bs = .ok (ot, os, comb)) :
    (∀ ct cs, ot = some ct → os = some cs →
      comb = some (2 * ct * cs / (ct + cs))) ∧
    ((ot = none ∨ os = none) → comb = none) := by
  obtain ⟨-, -, hcases⟩ := get_carburacy_ok_cases score alpha bt bs et es ot os comb h
  rcases hcases with ⟨ct, cs, hot, hos, hsum, hcomb⟩ | ⟨hnone, hcomb⟩
  · constructor
    · intro ct' cs' hot' hos'
      rw [hot] at hot'
      rw [hos] at hos'
      obtain rfl := Option.some.inj hot'
      obtain rfl := Option.some.inj hos'
      exact hcomb
    · intro hcontra
      rcases hcontra with h' | h'
      · rw [hot] at h'
        exact absurd h' (by simp)
      · rw [hos] at h'
        exact absurd h' (by simp)
  · constructor
    · intro ct' cs' hot' hos'
      rcases hnone with h' | h'
      · rw [h'] at hot'
        exact absurd hot' (by simp)
      · rw [h'] at hos'
        exact absurd hos' (by simp)
    · intro _
      exact hcomb

/-- C5 witness on scenario-1 inputs, where both phases are present. -/
theorem C5_harmonic_mean_witness :
    (∀ ct cs, some (score_adjustment (4 / 5) 10 / (3 / 2)) = some ct →
        some (score_adjustment (4 / 5) 10 / 2) = some cs →
      some (4 * score_adjustment (4 / 5) 10 / 7) =
        some (2 * ct * cs / (ct + cs))) ∧
    ((some (score_adjustment (4 / 5) 10 / (3 / 2)) = (none : Option ℝ) ∨
        some (score_adjustment (4 / 5) 10 / 2) = (none : Option ℝ)) →
      some (4 * score_adjustment (4 / 5) 10 / 7) = (none : Option ℝ)) :=
  C5_harmonic_mean 80 10 1 100 (some 0.5) (some 0.01) _ _ _
    get_carburacy_scenario1_eq

/-- C6: for score in (0, 100], emission at least 0, beta positive and
alpha above 1, the carburacy lies in (0, 1] and is monotonically
decreasing (non-strictly: it is constant in beta when the emission is 0)
in the emission and in beta. -/
theorem C6_range_monotone (score e beta alpha : ℝ)
    (h1 : 0 < score) (h2 : score ≤ 100) (h3 : 0 ≤ e) (h4 : 0 < beta)
    (h5 : 1 < alpha) :
    ∃ r : ℝ, calculate_carburacy score (some e) beta alpha = .ok (some r) ∧
      0 < r ∧ r ≤ 1 ∧
      (∀ e' r', e ≤ e' →
        calculate_carburacy score (some e') beta alpha = .ok (some r') → r' ≤ r) ∧
      (∀ b' r', beta ≤ b' →
        calculate_carburacy score (some e) b' alpha = .ok (some r') → r' ≤ r) := by
  have halpha0 : 0 < alpha := by linarith
  have hden : 0 < 1 + e * beta := by nlinarith
  have hA0 : 0 < score_adjustment (score / 100) alpha := Real.exp_pos _
  have hA1 : score_adjustment (score / 100) alpha ≤ 1 := by
    rw [score_adjustment, Real.exp_le_one_iff]
    have hln : Real.log (score / 100) ≤ 0 :=
      Real.log_nonpos (by positivity) ((div_le_one (by norm_num)).mpr h2)
    have hld : 0 < Real.log alpha := Real.log_pos h5
    exact div_nonpos_iff.mpr (Or.inr ⟨hln, hld.le⟩)
  refine ⟨score_adjustment (score / 100) alpha / (1 + e * beta),
    calculate_carburacy_ok_eq score e beta alpha h1 halpha0 (ne_of_gt h5)
      (ne_of_gt hden),
    div_pos hA0 hden, ?_, ?_, ?_⟩
  · rw [div_le_one hden]
    nlinarith
  · intro e' r' hee' heval
    have hden' : 0 < 1 + e' * beta := by nlinarith
    rw [calculate_carburacy_ok_eq score e' beta alpha h1 halpha0 (ne_of_gt h5)
      (ne_of_gt hden')] at heval
    obtain rfl := (Option.some.inj (Except.ok.inj heval)).symm
    rw [div_le_div_iff₀ hden' hden]
    have hdd : 1 + e * beta ≤ 1 + e' * beta := by nlinarith
    exact mul_le_mul_of_nonneg_left hdd hA0.le
  · intro b' r' hbb' heval
    have hden' : 0 < 1 + e * b' := by nlinarith
    rw [calculate_carburacy_ok_eq score e b' alpha h1 halpha0 (ne_of_gt h5)
      (ne_of_gt hden')] at heval
    obtain rfl := (Option.some.inj (Except.ok.inj heval)).symm
    rw [div_le_div_iff₀ hden' hden]
    have hdd : 1 + e * beta ≤ 1 + e * b' := by nlinarith
    exact mul_le_mul_of_nonneg_left hdd hA0.le

/-- C6 witness at score 80, emission 0.5, beta 1, alpha 10. -/
theorem C6_range_monotone_witness :
    ∃ r : ℝ, calculate_carburacy 80 (some 0.5) 1 10 = .ok (some r) ∧
      0 < r ∧ r ≤ 1 ∧
      (∀ e' r', (0.5 : ℝ) ≤ e' →
        calculate_carburacy 80 (some e') 1 10 = .ok (some r') → r' ≤ r) ∧
      (∀ b' r', (1 : ℝ) ≤ b' →
        calculate_carburacy 80 (some 0.5) b' 10 = .ok (some r') → r' ≤ r) :=
  C6_range_monotone 80 0.5 1 10 (by norm_num) (by norm_num) (by norm_num)
    (by norm_num) (by norm_num)

/-- C8: the harmonic-mean division in get_carburacy is not guarded:
when both phase carburacies are defined and sum to zero (score 80,
emission_train 0 and emission_test -0.02 give carburacies A and -A),
the code raises ZeroDivisionError instead of reporting an undefined
combined value. -/
theorem C8_zero_denominator_fault :
    get_carburacy 80 (some 0) (some (-0.02)) 10 1 100 =
      .error .zeroDivisionError := by
  have h80 : (80 : ℝ) / 100 = 4 / 5 := by norm_num
  have htr : calculate_carburacy 80 (some 0) 1 10 =
      .ok (some (score_adjustment (4 / 5) 10 / 1)) := by
    rw [calculate_carburacy_ok_eq 80 0 1 10 (by norm_num) (by norm_num)
      (by norm_num) (by norm_num), h80]
    norm_num
  have hte : calculate_carburacy 80 (some (-0.02)) 100 10 =
      .ok (some (score_adjustment (4 / 5) 10 / (-1))) := by
    rw [calculate_carburacy_ok_eq 80 (-0.02) 100 10 (by norm_num) (by norm_num)
      (by norm_num) (by norm_num), h80]
    norm_num
  have hsum : score_adjustment (4 / 5) 10 / 1 + score_adjustment (4 / 5) 10 / (-1) = 0 := by
    ring
  rw [get_carburacy, htr, hte]
  simp only [if_pos hsum]

/-- C9: on the documented domain the carburacy is strictly positive,
never 0, while an absent emission yields None: None is the unique
marker of an undefined carburacy, and a returned 0 cannot be confused
with a missing measurement. -/
theorem C9_strict_positive (score e beta alpha : ℝ)
    (h1 : 0 < score) (_h2 : score ≤ 100) (h3 : 0 ≤ e) (h4 : 0 < beta)
    (h5 : 1 < alpha) :
    (∃ r : ℝ, calculate_carburacy score (some e) beta alpha = .ok (some r) ∧
      0 < r) ∧
    calculate_carburacy score none beta alpha = .ok none := by
  have halpha0 : 0 < alpha := by linarith
  have hden : 0 < 1 + e * beta := by nlinarith
  exact ⟨⟨score_adjustment (score / 100) alpha / (1 + e * beta),
    calculate_carburacy_ok_eq score e beta alpha h1 halpha0 (ne_of_gt h5)
      (ne_of_gt hden),
    div_pos (Real.exp_pos _) hden⟩, rfl⟩

/-- C9 witness at score 80, emission 0.5, beta 1, alpha 10. -/
theorem C9_strict_positive_witness :
    (∃ r : ℝ, calculate_carburacy 80 (some 0.5) 1 10 = .ok (some r) ∧
      0 < r) ∧
    calculate_carburacy 80 none 1 10 = .ok none :=
  C9_strict_positive 80 0.5 1 10 (by norm_num) (by norm_num) (by norm_num)
    (by norm_num) (by norm_num)

/-- C10: when both phase carburacies are defined and strictly positive,
the combined harmonic mean lies between their minimum and maximum, and
it attains either endpoint exactly when the two phase values are
equal. -/
theorem C10_between_min_max (score alpha bt bs : ℝ) (et es : Option ℝ)
    (ct cs c : ℝ)
    (h : get_carburacy score et es alpha bt bs = .ok (some ct, some cs, some c))
    (hct : 0 < ct) (hcs : 0 < cs) :
    min ct cs ≤ c ∧ c ≤ max ct cs ∧
    (c = min ct cs ↔ ct = cs) ∧ (c = max ct cs ↔ ct = cs) := by
  obtain ⟨-, -, hcases⟩ := get_carburacy_ok_cases score alpha bt bs et es _ _ _ h
  rcases hcases with ⟨ct', cs', hot, hos, hsum, hcomb⟩ | ⟨hnone, -⟩
  · obtain rfl := Option.some.inj hot
    obtain rfl := Option.some.inj hos
    obtain rfl := Option.some.inj hcomb
    have hs : 0 < ct + cs := by linarith
    have hmin : min ct cs ≤ 2 * ct * cs / (ct + cs) := by
      rcases le_total ct cs with hle | hle
      · rw [min_eq_left hle, le_div_iff₀ hs]
        nlinarith [mul_nonneg hct.le (sub_nonneg.mpr hle)]
      · rw [min_eq_right hle, le_div_iff₀ hs]
        nlinarith [mul_nonneg hcs.le (sub_nonneg.mpr hle)]
    have hmax : 2 * ct * cs / (ct + cs) ≤ max ct cs := by
      rcases le_total ct cs with hle | hle
      · rw [max_eq_right hle, div_le_iff₀ hs]
        nlinarith [mul_nonneg hcs.le (sub_nonneg.mpr hle)]
      · rw [max_eq_left hle, div_le_iff₀ hs]
        nlinarith [mul_nonneg hct.le (sub_nonneg.mpr hle)]
    have heqmin : 2 * ct * cs / (ct + cs) = min ct cs ↔ ct = cs := by
      constructor
      · intro hEq
        rcases le_total ct cs with hle | hle
        · rw [min_eq_left hle, div_eq_iff (ne_of_gt hs)] at hEq
          have hz : ct * (cs - ct) = 0 := by linear_combination hEq
          rcases mul_eq_zero.mp hz with h0 | h0
          · exact absurd h0 (ne_of_gt hct)
          · linarith
        · rw [min_eq_right hle, div_eq_iff (ne_of_gt hs)] at hEq
          have hz : cs * (ct - cs) = 0 := by linear_combination hEq
          rcases mul_eq_zero.mp hz with h0 | h0
          · exact absurd h0 (ne_of_gt hcs)
          · linarith
      · intro hEq
        subst hEq
        rw [min_self, div_eq_iff (ne_of_gt hs)]
        ring
    have heqmax : 2 * ct * cs / (ct + cs) = max ct cs ↔ ct = cs := by
      constructor
      · intro hEq
        rcases le_total ct cs with hle | hle
        · rw [max_eq_right hle, div_eq_iff (ne_of_gt hs)] at hEq
          have hz : cs * (ct - cs) = 0 := by linear_combination hEq
          rcases mul_eq_zero.mp hz with h0 | h0
          · exact absurd h0 (ne_of_gt hcs)
          · linarith
        · rw [max_eq_left hle, div_eq_iff (ne_of_gt hs)] at hEq
          have hz : ct * (cs - ct) = 0 := by linear_combination hEq
          rcases mul_eq_zero.mp hz with h0 | h0
          · exact absurd h0 (ne_of_gt hct)
          · linarith
      · intro hEq
        subst hEq
        rw [max_self, div_eq_iff (ne_of_gt hs)]
        ring
    exact ⟨hmin, hmax, heqmin, heqmax⟩
  · rcases hnone with h' | h' <;> exact absurd h' (by simp)

/-- C10 witness on scenario-1 inputs, whose phase carburacies are both
positive. -/
theorem C10_between_min_max_witness :
    min (score_adjustment (4 / 5) 10 / (3 / 2)) (score_adjustment (4 / 5) 10 / 2) ≤
      4 * score_adjustment (4 / 5) 10 / 7 ∧
    4 * score_adjustment (4 / 5) 10 / 7 ≤
      max (score_adjustment (4 / 5) 10 / (3 / 2)) (score_adjustment (4 / 5) 10 / 2) ∧
    (4 * score_adjustment (4 / 5) 10 / 7 =
        min (score_adjustment (4 / 5) 10 / (3 / 2)) (score_adjustment (4 / 5) 10 / 2) ↔
      score_adjustment (4 / 5) 10 / (3 / 2) = score_adjustment (4 / 5) 10 / 2) ∧
    (4 * score_adjustment (4 / 5) 10 / 7 =
        max (score_adjustment (4 / 5) 10 / (3 / 2)) (score_adjustment (4 / 5) 10 / 2) ↔
      score_adjustment (4 / 5) 10 / (3 / 2) = score_adjustment (4 / 5) 10 / 2) :=
  C10_between_min_max 80 10 1 100 (some 0.5) (some 0.01) _ _ _
    get_carburacy_scenario1_eq
    (div_pos (Real.exp_pos _) (by norm_num))
    (div_pos (Real.exp_pos _) (by norm_num))
